import Mathlib

/-!
Verification of the gcs-fuse-csi-driver slice: the metadata-prefetch daemon
(cmd/metadata_prefetch/main.go) and the sidecar injection contract
(pkg/webhook/sidecar_spec.go), shallowly embedded in Lean.
-/

namespace GcsFuseCsi

/-! ## Machine-type classifier (cmd/metadata_prefetch/main.go line 41)

The Go source compiles the regular expression
  ^projects/[0-9]+/machineTypes/(a3|a4|ct5l|ct5lp|ct5p|ct6e)-.*$
and asks MatchString.  Under Go's default flags the pattern is anchored at
both ends of the text (no m flag, so the anchors are begin and end of text,
not of line), the character class [0-9]+ is a nonempty digit run
necessarily maximal (it is followed by the non-digit '/'), the alternation
is a finite set of literal tokens each followed by a literal '-', and the
tail .* accepts any run of characters other than newline: without the s
flag, '.' matches every character except a newline, so a string whose tail
after the hyphen contains a newline anywhere (including at the very end,
since '$' is end of text, not end of line) does not match.  The embedding
below parses exactly that shape deterministically over the character
list. -/

/-- The family tokens of the alternation in supportedMachineRegex. -/
def familyTokens : List String := ["a3", "a4", "ct5l", "ct5lp", "ct5p", "ct6e"]

/-- Match a literal character sequence at the front of the input and return
the remainder, or none when the literal is not there. -/
def dropLit : List Char → List Char → Option (List Char)
  | [], s => some s
  | _ :: _, [] => none
  | a :: p, b :: s => if a = b then dropLit p s else none

/-- One alternative of the family alternation: the token, the literal '-',
then the tail accepted by .*$ — any characters up to the end of the text,
none of them a newline ('.' excludes newline and '$' anchors at the end of
the text). -/
def famAlt (t : String) (s3 : List Char) : Bool :=
  match dropLit (t.data ++ ['-']) s3 with
  | none => false
  | some r => r.all fun ch => ch != '\n'

/-- MatchString of supportedMachineRegex on the character list of the input. -/
def machineTypeMatch (l : List Char) : Bool :=
  match dropLit "projects/".data l with
  | none => false
  | some s1 =>
    let ds := s1.takeWhile Char.isDigit
    let s2 := s1.dropWhile Char.isDigit
    !ds.isEmpty &&
      match dropLit "/machineTypes/".data s2 with
      | none => false
      | some s3 => familyTokens.any fun t => famAlt t s3

/-- supportedMachineRegex.MatchString from main.go. -/
def supportedMachineRegexMatch (s : String) : Bool :=
  machineTypeMatch s.data

/-- The classifier as the spec names it: a pure total Bool-valued match. -/
def IsAcceleratedFamily (s : String) : Bool :=
  supportedMachineRegexMatch s

/-! ## Prefetch policy (cmd/metadata_prefetch/main.go lines 68-77)

main reads USER_ENABLED_METADATA_PREFETCH and compares it, case-sensitively,
with the literals "TRUE" and "FALSE"; any other value falls back to the
regex match on the fetched machine type. -/

/-- The prefetch decision of main.go lines 68-77 as a pure function of the
override value and the machine type. -/
def Decide (override machineType : String) : Bool :=
  if override = "TRUE" then true
  else if override = "FALSE" then false
  else supportedMachineRegexMatch machineType

example : IsAcceleratedFamily "projects/123/machineTypes/a3-highgpu-8g" = true := by decide
example : IsAcceleratedFamily "projects/1/machineTypes/ct5lp-hightpu-4t" = true := by decide
example : IsAcceleratedFamily "projects/123/machineTypes/n2-standard-4" = false := by decide
example : IsAcceleratedFamily "" = false := by decide
example : IsAcceleratedFamily "projects/123/machineTypes/a35-x" = false := by decide
example : IsAcceleratedFamily "projects/123/machineTypes/a3" = false := by decide
example : IsAcceleratedFamily "projects/abc/machineTypes/a3-x" = false := by decide
example : IsAcceleratedFamily "projects/1/machineTypes/a3-x\ny" = false := by decide
example : IsAcceleratedFamily "projects/1/machineTypes/a3-x\n" = false := by decide
example : Decide "" "projects/1/machineTypes/a3-x" = true := by decide
example : Decide "" "projects/1/machineTypes/n2-x" = false := by decide

/-! ## getMachineType (cmd/metadata_prefetch/main.go lines 112-135)

The function builds a GET request, sends it through the default client,
checks the status code against http.StatusOK (200), reads the whole body,
and returns the body as a string.  Every failing step returns the pair
("", error).  The HTTP world outside the process is modelled as the outcome
of each fallible step: whether request construction fails, what the
transport returns, and whether reading the response body succeeds. -/

/-- An HTTP response as getMachineType consumes it: a status code and the
outcome of io.ReadAll on its body. -/
structure Resp where
  StatusCode : Nat
  bodyRead : Except String String

/-- The outcomes of the fallible external steps inside getMachineType. -/
structure HttpWorld where
  newRequestErr : Option String
  doResult : Except String Resp

/-- getMachineType from main.go, as a function of the external outcomes.
Returns the Go pair (machineType string, error), the error modelled as
an optional message. -/
def getMachineType (w : HttpWorld) : String × Option String :=
  match w.newRequestErr with
  | some e => ("", some ("failed to create request: " ++ e))
  | none =>
    match w.doResult with
    | .error e => ("", some ("failed to get machine type: " ++ e))
    | .ok resp =>
      if resp.StatusCode ≠ 200 then
        ("", some ("unexpected status code: " ++ toString resp.StatusCode))
      else
        match resp.bodyRead with
        | .error e => ("", some ("failed to read response body: " ++ e))
        | .ok body => (body, none)

/-! ## The straight-line body of main (cmd/metadata_prefetch/main.go)

After installing the SIGTERM handler, main fetches the machine type
(a failure is logged and ignored), computes the prefetch decision from the
environment override, optionally runs the ls prefetch subprocess (whose
start error, directory enumeration and wait error are external outcomes,
all of them logged and none fatal), logs "Going to sleep..." and parks in
select {}.  No path in the function body exits the process: os.Exit lives
only in the SIGTERM goroutine. -/

/-- klog severity of a log line emitted by main. -/
inductive LogLevel where
  | info
  | warning
  | error
deriving DecidableEq

/-- Outcomes of the external steps of the prefetch branch: cmd.Start,
getDirectoryNames on /volumes/, and cmd.Wait. -/
structure ExecWorld where
  startErr : Option String
  readDirResult : Except String (List String)
  waitErr : Option String

/-- The result of one run of the straight-line body of main: the log lines,
the computed prefetch decision, and whether the run reached the final
select \x7b\x7d park. -/
structure MainRun where
  logs : List (LogLevel × String)
  enablePrefetch : Bool
  parked : Bool
deriving DecidableEq

/-- The log lines of the prefetch branch of main, from the exec outcomes. -/
def prefetchLogs (ew : ExecWorld) : List (LogLevel × String) :=
  match ew.startErr with
  | some e => [(.error, "Error starting ls command: " ++ e ++ ".")]
  | none =>
    (match ew.readDirResult with
     | .ok mountPaths =>
        [(.info, "Running ls on mountPath(s): " ++ String.intercalate ", " mountPaths)]
     | .error e => [(.warning, "failed to get mountPaths: " ++ e)]) ++
    (match ew.waitErr with
     | some e => [(.error, "Error while executing ls command: " ++ e)]
     | none => [(.info, "Metadata prefetch complete")])

/-- The straight-line body of main (lines 63-109): fetch machine type,
decide, optionally prefetch, go to sleep.  The override argument is the
value of USER_ENABLED_METADATA_PREFETCH. -/
def runMain (hw : HttpWorld) (ew : ExecWorld) (override : String) : MainRun :=
  let r := getMachineType hw
  let machineType := r.1
  let fetchLogs := match r.2 with
    | some e => [(LogLevel.warning, "Unable to fetch machine-type, ignoring: " ++ e)]
    | none => []
  let enablePrefetch := Decide override machineType
  let branchLogs := if enablePrefetch then prefetchLogs ew else []
  { logs := fetchLogs ++ branchLogs ++ [(.info, "Going to sleep...")]
    enablePrefetch := enablePrefetch
    parked := true }

/-! ## Sidecar contract (pkg/webhook/sidecar_spec.go)

The Kubernetes API types are embedded with exactly the fields this file
touches; resource quantities, pull policies and volume-source details are
opaque strings, as the source treats them. -/

def SidecarContainerName : String := "gke-gcsfuse-sidecar"

def SidecarContainerVolumeName : String := "gke-gcsfuse-tmp"

def SidecarContainerVolumeMountPath : String := "/tmp"

/-- webhook.Config: the fields GetSidecarContainerSpec reads. -/
structure Config where
  ContainerImage : String
  ImageVersion : String
  ImagePullPolicy : String
  CPULimit : String
  MemoryLimit : String
  EphemeralStorageLimit : String
deriving DecidableEq

/-- v1.SecurityContext, restricted to the fields the builder sets. -/
structure SecurityContext where
  AllowPrivilegeEscalation : Option Bool
  RunAsUser : Option Int
  RunAsGroup : Option Int
deriving DecidableEq

/-- v1.ResourceList with the three keys the builder populates. -/
structure ResourceList where
  cpu : String
  memory : String
  ephemeralStorage : String
deriving DecidableEq

/-- v1.ResourceRequirements. -/
structure ResourceRequirements where
  Limits : ResourceList
  Requests : ResourceList
deriving DecidableEq

/-- v1.VolumeMount, restricted to the fields this file uses. -/
structure VolumeMount where
  Name : String
  MountPath : String
deriving DecidableEq

/-- v1.Container, restricted to the fields this file uses. -/
structure Container where
  Name : String
  Image : String
  ImagePullPolicy : String
  SecurityContext : Option SecurityContext
  Args : List String
  Resources : ResourceRequirements
  VolumeMounts : List VolumeMount
deriving DecidableEq

/-- v1.EmptyDirVolumeSource; the source constructs the zero value. -/
structure EmptyDirVolumeSource where
  Medium : String := ""
  SizeLimit : Option String := none
deriving DecidableEq

/-- v1.VolumeSource, restricted to the EmptyDir member the source touches;
none models every non-empty-dir source. -/
structure VolumeSource where
  EmptyDir : Option EmptyDirVolumeSource
deriving DecidableEq

/-- v1.Volume. -/
structure Volume where
  Name : String
  VolumeSource : VolumeSource
deriving DecidableEq

/-- corev1.PodSpec, restricted to the fields the validator reads.  An
absent list in the serialized pod is the empty list here. -/
structure PodSpec where
  Containers : List Container
  Volumes : List Volume
deriving DecidableEq

/-- corev1.Pod. -/
structure Pod where
  Spec : PodSpec
deriving DecidableEq

/-- GetSidecarContainerSpec from sidecar_spec.go. -/
def GetSidecarContainerSpec (c : Config) : Container :=
  { Name := SidecarContainerName
    Image := c.ContainerImage ++ ":" ++ c.ImageVersion
    ImagePullPolicy := c.ImagePullPolicy
    SecurityContext := some
      { AllowPrivilegeEscalation := some false
        RunAsUser := some 0
        RunAsGroup := some 0 }
    Args := ["--v=5"]
    Resources :=
      { Limits :=
          { cpu := c.CPULimit
            memory := c.MemoryLimit
            ephemeralStorage := c.EphemeralStorageLimit }
        Requests :=
          { cpu := c.CPULimit
            memory := c.MemoryLimit
            ephemeralStorage := c.EphemeralStorageLimit } }
    VolumeMounts :=
      [{ Name := SidecarContainerVolumeName
         MountPath := SidecarContainerVolumeMountPath }] }

/-- GetSidecarContainerVolumeSpec from sidecar_spec.go. -/
def GetSidecarContainerVolumeSpec : Volume :=
  { Name := SidecarContainerVolumeName
    VolumeSource := { EmptyDir := some {} } }

/-- strings.Split(image, ":")[0]: the text before the first colon, the
whole string when there is none. -/
def imageRepo (s : String) : String :=
  ⟨s.data.takeWhile fun ch => ch ≠ ':'⟩

/-- The inner loop of ValidatePodHasSidecarContainerInjected: does the
container carry a volume mount with the fixed name and path? -/
def hasSidecarMount (c : Container) : Bool :=
  c.VolumeMounts.any fun v =>
    v.Name == SidecarContainerVolumeName && v.MountPath == SidecarContainerVolumeMountPath

/-- The outer loop of ValidatePodHasSidecarContainerInjected.  The source
breaks out of the loop after the first container whose name and image repo
both match, with containerInjected set by the inner mount scan; a container
failing the combined name-and-image test is skipped and the loop goes on. -/
def containerInjectedLoop (image : String) : List Container → Bool
  | [] => false
  | c :: rest =>
    if c.Name = SidecarContainerName ∧ imageRepo c.Image = image then
      hasSidecarMount c
    else
      containerInjectedLoop image rest

/-- The volume loop of ValidatePodHasSidecarContainerInjected: some pod
volume has the fixed name and a non-nil EmptyDir source. -/
def volumeInjectedLoop (vols : List Volume) : Bool :=
  vols.any fun v => v.Name == SidecarContainerVolumeName && v.VolumeSource.EmptyDir.isSome

/-- ValidatePodHasSidecarContainerInjected from sidecar_spec.go. -/
def ValidatePodHasSidecarContainerInjected (image : String) (pod : Pod) : Bool :=
  containerInjectedLoop image pod.Spec.Containers && volumeInjectedLoop pod.Spec.Volumes

/-- The injection condition as the spec sentence words it: SOME container
(existential over the whole list, not just the first name-and-image match)
passes the name, image-repo and mount checks, and some pod volume is the
fixed empty-dir volume.  Stated only to compare with the source function. -/
def IsInjectedSpecReading (image : String) (pod : Pod) : Bool :=
  (pod.Spec.Containers.any fun c =>
    c.Name == SidecarContainerName && imageRepo c.Image == image && hasSidecarMount c) &&
  volumeInjectedLoop pod.Spec.Volumes

/-! ## Concrete fixtures for the validator -/

/-- The volume mount the sidecar contract requires. -/
def goodMount : VolumeMount :=
  { Name := SidecarContainerVolumeName, MountPath := SidecarContainerVolumeMountPath }

/-- A container with the sidecar name, a given image and given mounts. -/
def sideCtr (img : String) (ms : List VolumeMount) : Container :=
  { Name := SidecarContainerName
    Image := img
    ImagePullPolicy := ""
    SecurityContext := none
    Args := []
    Resources := ⟨⟨"", "", ""⟩, ⟨"", "", ""⟩⟩
    VolumeMounts := ms }

/-- The pod volume the sidecar contract requires. -/
def goodVolume : Volume :=
  { Name := SidecarContainerVolumeName, VolumeSource := { EmptyDir := some {} } }

/-- A sidecar-named container whose image repo is not the expected one. -/
def ctrWrongImage : Container := sideCtr "other:v1" [goodMount]

/-- A sidecar-named container with the expected image and the mount. -/
def ctrRightImage : Container := sideCtr "repoX:v1" [goodMount]

/-- A sidecar-named container with the expected image but no mounts. -/
def ctrNoMount : Container := sideCtr "repoX:v1" []

/-- Two sidecar-named containers; the first fails only the image check. -/
def podWrongImageFirst : Pod :=
  ⟨⟨[ctrWrongImage, ctrRightImage], [goodVolume]⟩⟩

/-- Two containers passing the name and image checks; only the second
carries the mount. -/
def podMountOnSecond : Pod :=
  ⟨⟨[ctrNoMount, ctrRightImage], [goodVolume]⟩⟩

example : ValidatePodHasSidecarContainerInjected "repoX" podWrongImageFirst = true := by decide
example : ValidatePodHasSidecarContainerInjected "repoX" ⟨⟨[ctrWrongImage], [goodVolume]⟩⟩ = false := by decide
example : ValidatePodHasSidecarContainerInjected "repoX" podMountOnSecond = false := by decide
example : IsInjectedSpecReading "repoX" podMountOnSecond = true := by decide
example : ValidatePodHasSidecarContainerInjected "repoX" ⟨⟨[ctrRightImage], [goodVolume]⟩⟩ = true := by decide
example : ValidatePodHasSidecarContainerInjected "repoY" ⟨⟨[ctrRightImage], [goodVolume]⟩⟩ = false := by decide
example : ValidatePodHasSidecarContainerInjected "repoX" ⟨⟨[ctrRightImage], [⟨SidecarContainerVolumeName, ⟨none⟩⟩]⟩⟩ = false := by decide
example : ValidatePodHasSidecarContainerInjected "repoX" ⟨⟨[], []⟩⟩ = false := by decide

/-! ## Helper lemmas -/

/-- dropLit succeeds exactly on inputs that extend the literal. -/
theorem dropLit_eq_some_iff (p : List Char) : ∀ s t : List Char,
    dropLit p s = some t ↔ s = p ++ t := by
  induction p with
  | nil => intro s t; simp [dropLit]
  | cons a p ih =>
    intro s t
    cases s with
    | nil => simp [dropLit]
    | cons b s =>
      by_cases h : a = b
      · subst h
        simp [dropLit, ih]
      · simp only [dropLit, if_neg h, List.cons_append, List.cons.injEq]
        constructor
        · intro hfalse; cases hfalse
        · rintro ⟨hba, -⟩; exact absurd hba.symm h

/-- The outer container loop computes the mount check of the first container
passing the combined name-and-image test, and false when none passes. -/
theorem containerInjectedLoop_eq_find (image : String) (cs : List Container) :
    containerInjectedLoop image cs =
      ((cs.find? fun c =>
          c.Name == SidecarContainerName && imageRepo c.Image == image).map
        hasSidecarMount).getD false := by
  induction cs with
  | nil => rfl
  | cons c rest ih =>
    by_cases h : c.Name = SidecarContainerName ∧ imageRepo c.Image = image
    · have hb : (c.Name == SidecarContainerName && imageRepo c.Image == image) = true := by
        simp [h.1, h.2]
      simp [containerInjectedLoop, if_pos h, List.find?, hb]
    · have hb : (c.Name == SidecarContainerName && imageRepo c.Image == image) = false := by
        rcases Decidable.not_and_iff_or_not.mp h with h1 | h1 <;> simp [h1]
      simp [containerInjectedLoop, if_neg h, List.find?, hb, ih]

/-- Whenever getMachineType reports an error, its string component is "". -/
theorem getMachineType_err_fst (w : HttpWorld)
    (h : (getMachineType w).2.isSome = true) : (getMachineType w).1 = "" := by
  unfold getMachineType at *
  rcases w with ⟨nre, dr⟩
  cases nre with
  | some e => rfl
  | none =>
    cases dr with
    | error e => rfl
    | ok resp =>
      by_cases hs : resp.StatusCode ≠ 200
      · simp only [if_pos hs]
      · simp only [if_neg hs] at *
        cases hb : resp.bodyRead with
        | error e => rfl
        | ok body => simp [hb] at h

/-! ## Claims -/

/-- C1: the prefetch decision with override "TRUE" is true and with "FALSE"
is false for every machine type; any other override (the comparison being
case-sensitive and exact) falls back to IsAcceleratedFamily, and the two
quoted examples with the empty override evaluate as stated. -/
theorem decide_policy_spec (o m : String) :
    Decide "TRUE" m = true ∧ Decide "FALSE" m = false ∧
    (o ≠ "TRUE" → o ≠ "FALSE" → Decide o m = IsAcceleratedFamily m) ∧
    Decide "" "projects/1/machineTypes/a3-x" = true ∧
    Decide "" "projects/1/machineTypes/n2-x" = false := by
  refine ⟨rfl, ?_, ?_, by decide, by decide⟩
  · unfold Decide
    rw [if_neg (by decide), if_pos rfl]
  · intro h1 h2
    unfold Decide
    rw [if_neg h1, if_neg h2]
    rfl

/-- Witness for C1: the fallback branch at a concrete non-literal override. -/
theorem decide_policy_spec_app :
    Decide "yes" "projects/7/machineTypes/ct6e-a" =
      IsAcceleratedFamily "projects/7/machineTypes/ct6e-a" :=
  (decide_policy_spec "yes" "projects/7/machineTypes/ct6e-a").2.2.1
    (by decide) (by decide)

/-- C5: IsAcceleratedFamily evaluates as the spec states on the four quoted
inputs, and is a total Bool-valued function on every string. -/
theorem isAcceleratedFamily_vectors :
    IsAcceleratedFamily "projects/123/machineTypes/a3-highgpu-8g" = true ∧
    IsAcceleratedFamily "projects/1/machineTypes/ct5lp-hightpu-4t" = true ∧
    IsAcceleratedFamily "projects/123/machineTypes/n2-standard-4" = false ∧
    IsAcceleratedFamily "" = false ∧
    ∀ s : String, IsAcceleratedFamily s = true ∨ IsAcceleratedFamily s = false := by
  refine ⟨by decide, by decide, by decide, by decide, ?_⟩
  intro s
  cases h : IsAcceleratedFamily s
  · right; rfl
  · left; rfl

/-- C7: for every config, the sidecar container spec has Limits equal to
Requests for CPU, memory and ephemeral storage, and exactly one volume
mount, at the fixed volume name and fixed mount path. -/
theorem sidecar_container_limits_eq_requests (cfg : Config) :
    (GetSidecarContainerSpec cfg).Resources.Limits =
      (GetSidecarContainerSpec cfg).Resources.Requests ∧
    (GetSidecarContainerSpec cfg).VolumeMounts =
      [{ Name := SidecarContainerVolumeName
         MountPath := SidecarContainerVolumeMountPath }] :=
  ⟨rfl, rfl⟩

/-- C8: the sidecar volume spec is the fixed value with the fixed name and
an empty-dir source; the builder takes no input and has no state, so any
two calls return value-equal results. -/
theorem sidecar_volume_fixed :
    GetSidecarContainerVolumeSpec =
      { Name := SidecarContainerVolumeName
        VolumeSource := { EmptyDir := some {} } } ∧
    GetSidecarContainerVolumeSpec.Name = SidecarContainerVolumeName ∧
    GetSidecarContainerVolumeSpec.VolumeSource.EmptyDir.isSome = true ∧
    GetSidecarContainerVolumeSpec = GetSidecarContainerVolumeSpec :=
  ⟨rfl, rfl, rfl, rfl⟩

/-- C2 counterexample: in podWrongImageFirst the first container carrying
the sidecar name fails the image check (and would pass the mount check),
yet the validator returns true because it moves on and accepts the second
container of the same name; dropping that later container flips the result
to false.  So the claim that the first name-matching container is the only
one inspected is false on the code. -/
theorem validator_skips_wrong_image_duplicate :
    ctrWrongImage.Name = SidecarContainerName ∧
    imageRepo ctrWrongImage.Image ≠ "repoX" ∧
    hasSidecarMount ctrWrongImage = true ∧
    ValidatePodHasSidecarContainerInjected "repoX" podWrongImageFirst = true ∧
    ValidatePodHasSidecarContainerInjected "repoX" ⟨⟨[ctrWrongImage], [goodVolume]⟩⟩ = false := by
  refine ⟨rfl, by decide, by decide, by decide, by decide⟩

/-- C2 amended: the scan stops at the first container whose name AND image
repo both match — that container's mount check then decides the container
half of the verdict and later containers are ignored — while a container
matching the name but not the image repo is skipped and the scan goes on. -/
theorem validator_first_name_image_match_final (image : String) (c : Container)
    (rest : List Container) (vols : List Volume)
    (hname : c.Name = SidecarContainerName) (himg : imageRepo c.Image = image) :
    ValidatePodHasSidecarContainerInjected image ⟨⟨c :: rest, vols⟩⟩ =
      (hasSidecarMount c && volumeInjectedLoop vols) ∧
    ∀ c0 : Container, imageRepo c0.Image ≠ image →
      ValidatePodHasSidecarContainerInjected image ⟨⟨c0 :: c :: rest, vols⟩⟩ =
        ValidatePodHasSidecarContainerInjected image ⟨⟨c :: rest, vols⟩⟩ := by
  constructor
  · unfold ValidatePodHasSidecarContainerInjected containerInjectedLoop
    rw [if_pos ⟨hname, himg⟩]
  · intro c0 h0
    unfold ValidatePodHasSidecarContainerInjected
    simp only [containerInjectedLoop]
    rw [if_neg fun hand => h0 hand.2]

/-- Witness for C2's amended theorem at a concrete pod: a first name-and-
image match without the mount makes the validator false even though a later
duplicate carries the mount, and prepending a wrong-image container changes
nothing. -/
theorem validator_first_name_image_match_final_app :
    ValidatePodHasSidecarContainerInjected "repoX" ⟨⟨[ctrNoMount, ctrRightImage], [goodVolume]⟩⟩ =
      (hasSidecarMount ctrNoMount && volumeInjectedLoop [goodVolume]) ∧
    ValidatePodHasSidecarContainerInjected "repoX"
        ⟨⟨[ctrWrongImage, ctrNoMount, ctrRightImage], [goodVolume]⟩⟩ =
      ValidatePodHasSidecarContainerInjected "repoX" ⟨⟨[ctrNoMount, ctrRightImage], [goodVolume]⟩⟩ := by
  have h := validator_first_name_image_match_final "repoX" ctrNoMount [ctrRightImage]
    [goodVolume] rfl (by decide)
  exact ⟨h.1, h.2 ctrWrongImage (by decide)⟩

/-- C3 counterexample: podMountOnSecond satisfies the claim's condition (a)
— a container with the sidecar name, the expected image repo and the fixed
mount exists — and condition (b), yet the validator returns false, because
the first name-and-image match (without the mount) is the only one whose
mounts are inspected.  So "returns true exactly when (a) and (b)" is false
on the code. -/
theorem validator_not_existential :
    IsInjectedSpecReading "repoX" podMountOnSecond = true ∧
    ValidatePodHasSidecarContainerInjected "repoX" podMountOnSecond = false := by
  refine ⟨by decide, by decide⟩

/-- C3 amended: the validator returns true exactly when the FIRST container
whose name and image repo match carries the fixed mount, and some pod
volume with the fixed name has an empty-dir source; in particular the
quoted single-container vectors hold, each single alteration yields false,
and empty container or volume lists yield a valid false. -/
theorem validator_characterization (image : String) (pod : Pod) :
    (ValidatePodHasSidecarContainerInjected image pod = true ↔
      (∃ c : Container,
        pod.Spec.Containers.find?
            (fun c => c.Name == SidecarContainerName && imageRepo c.Image == image) = some c ∧
        hasSidecarMount c = true) ∧
      (∃ v ∈ pod.Spec.Volumes,
        v.Name = SidecarContainerVolumeName ∧ v.VolumeSource.EmptyDir.isSome = true)) ∧
    ValidatePodHasSidecarContainerInjected "repoX" ⟨⟨[ctrRightImage], [goodVolume]⟩⟩ = true ∧
    ValidatePodHasSidecarContainerInjected "repoY" ⟨⟨[ctrRightImage], [goodVolume]⟩⟩ = false ∧
    ValidatePodHasSidecarContainerInjected "repoX"
      ⟨⟨[sideCtr "repoX:v1" [⟨SidecarContainerVolumeName, "/wrong"⟩]], [goodVolume]⟩⟩ = false ∧
    ValidatePodHasSidecarContainerInjected "repoX" ⟨⟨[ctrNoMount], [goodVolume]⟩⟩ = false ∧
    ValidatePodHasSidecarContainerInjected "repoX"
      ⟨⟨[ctrRightImage], [⟨SidecarContainerVolumeName, ⟨none⟩⟩]⟩⟩ = false ∧
    ValidatePodHasSidecarContainerInjected "repoX" ⟨⟨[], []⟩⟩ = false := by
  refine ⟨?_, by decide, by decide, by decide, by decide, by decide, by decide⟩
  unfold ValidatePodHasSidecarContainerInjected
  rw [Bool.and_eq_true, containerInjectedLoop_eq_find]
  constructor
  · rintro ⟨hc, hv⟩
    constructor
    · cases hf : pod.Spec.Containers.find?
          fun c => c.Name == SidecarContainerName && imageRepo c.Image == image with
      | none => rw [hf] at hc; cases hc
      | some c =>
        rw [hf] at hc
        exact ⟨c, rfl, hc⟩
    · unfold volumeInjectedLoop at hv
      rw [List.any_eq_true] at hv
      obtain ⟨v, hmem, hvb⟩ := hv
      rw [Bool.and_eq_true, beq_iff_eq] at hvb
      exact ⟨v, hmem, hvb.1, hvb.2⟩
  · rintro ⟨⟨c, hf, hm⟩, ⟨v, hmem, hvn, hve⟩⟩
    constructor
    · rw [hf]
      exact hm
    · unfold volumeInjectedLoop
      rw [List.any_eq_true]
      exact ⟨v, hmem, by simp [hvn, hve]⟩

/-- Witness for C3's amended theorem at a concrete pod, unpacking the
characterization in both directions. -/
theorem validator_characterization_app :
    (∃ c : Container,
      podWrongImageFirst.Spec.Containers.find?
          (fun c => c.Name == SidecarContainerName && imageRepo c.Image == "repoX") = some c ∧
      hasSidecarMount c = true) ∧
    (∃ v ∈ podWrongImageFirst.Spec.Volumes,
      v.Name = SidecarContainerVolumeName ∧ v.VolumeSource.EmptyDir.isSome = true) :=
  (validator_characterization "repoX" podWrongImageFirst).1.mp (by decide)

/-- C6: getMachineType errors exactly when the request cannot be built, the
transport fails, the status is not 200, or the body read fails; a 200
response whose body reads successfully yields the body with no error. -/
theorem getMachineType_error_cases (w : HttpWorld) :
    ((getMachineType w).2.isSome = true ↔
      w.newRequestErr.isSome = true ∨
      (∃ e, w.doResult = Except.error e) ∨
      (∃ resp, w.doResult = Except.ok resp ∧ resp.StatusCode ≠ 200) ∨
      (∃ resp e, w.doResult = Except.ok resp ∧ resp.StatusCode = 200 ∧
        resp.bodyRead = Except.error e)) ∧
    (∀ (resp : Resp) (body : String), w.newRequestErr = none →
      w.doResult = Except.ok resp → resp.StatusCode = 200 →
      resp.bodyRead = Except.ok body → getMachineType w = (body, none)) := by
  obtain ⟨nre, dr⟩ := w
  constructor
  · cases nre with
    | some e => simp [getMachineType]
    | none =>
      cases dr with
      | error e => simp [getMachineType]
      | ok resp =>
        by_cases hs : resp.StatusCode = 200
        · cases hb : resp.bodyRead with
          | error e => simp [getMachineType, hs, hb]
          | ok body => simp [getMachineType, hs, hb]
        · simp [getMachineType, hs]
  · intro resp body h1 h2 h3 h4
    subst h1
    subst h2
    simp [getMachineType, h3, h4]

/-- Witness for C6: the success clause at a concrete world with a 200
response carrying a concrete body. -/
theorem getMachineType_error_cases_app :
    getMachineType ⟨none, Except.ok ⟨200, Except.ok "projects/1/machineTypes/a3-x"⟩⟩ =
      ("projects/1/machineTypes/a3-x", none) :=
  (getMachineType_error_cases ⟨none, Except.ok ⟨200, Except.ok "projects/1/machineTypes/a3-x"⟩⟩).2
    ⟨200, Except.ok "projects/1/machineTypes/a3-x"⟩ "projects/1/machineTypes/a3-x"
    rfl rfl rfl rfl

/-- A concrete world in which the transport step fails. -/
def failingWorld : HttpWorld := ⟨none, Except.error "connection refused"⟩

/-- C9: an erroring getMachineType returns the empty string, which never
classifies as accelerated, so the fallback decision on fetch failure is
false for every non-literal override. -/
theorem getMachineType_error_empty_result (w : HttpWorld)
    (h : (getMachineType w).2.isSome = true) :
    (getMachineType w).1 = "" ∧
    IsAcceleratedFamily (getMachineType w).1 = false ∧
    ∀ o : String, o ≠ "TRUE" → o ≠ "FALSE" → Decide o (getMachineType w).1 = false := by
  have h1 := getMachineType_err_fst w h
  refine ⟨h1, ?_, ?_⟩
  · rw [h1]; decide
  · intro o h2 h3
    unfold Decide
    rw [if_neg h2, if_neg h3, h1]
    decide

/-- Witness for C9 at a concrete failing world and the unset override. -/
theorem getMachineType_error_empty_result_app :
    (getMachineType failingWorld).1 = "" ∧
    IsAcceleratedFamily (getMachineType failingWorld).1 = false ∧
    Decide "" (getMachineType failingWorld).1 = false := by
  have h := getMachineType_error_empty_result failingWorld (by decide)
  exact ⟨h.1, h.2.1, h.2.2 "" (by decide) (by decide)⟩

/-- C4: when the machine-type fetch errors and the override is neither
"TRUE" nor "FALSE", the effective decision is false, the run still reaches
the park at the end of main, and the failure shows up as a warning log
rather than an exit. -/
theorem fetch_failure_defaults_no_prefetch (hw : HttpWorld) (ew : ExecWorld) (o : String)
    (hfail : (getMachineType hw).2.isSome = true)
    (h1 : o ≠ "TRUE") (h2 : o ≠ "FALSE") :
    (runMain hw ew o).enablePrefetch = false ∧
    (runMain hw ew o).parked = true ∧
    ∃ e, (LogLevel.warning, "Unable to fetch machine-type, ignoring: " ++ e) ∈
      (runMain hw ew o).logs := by
  have hfst := getMachineType_err_fst hw hfail
  obtain ⟨e, he⟩ := Option.isSome_iff_exists.mp hfail
  have hdec : Decide o (getMachineType hw).1 = false := by
    unfold Decide
    rw [if_neg h1, if_neg h2, hfst]
    decide
  refine ⟨by simp [runMain, hdec], rfl, ⟨e, ?_⟩⟩
  simp [runMain, he]

/-- Witness for C4 at a concrete failing world, trivial exec outcomes and
the unset override. -/
theorem fetch_failure_defaults_no_prefetch_app :
    (runMain failingWorld ⟨none, Except.ok [], none⟩ "").enablePrefetch = false ∧
    (runMain failingWorld ⟨none, Except.ok [], none⟩ "").parked = true := by
  have h := fetch_failure_defaults_no_prefetch failingWorld ⟨none, Except.ok [], none⟩ ""
    (by decide) (by decide) (by decide)
  exact ⟨h.1, h.2.1⟩

/-! ## Characterizing the machine-type regex -/

/-- machineTypeMatch is false when the projects/ literal is absent. -/
theorem machineTypeMatch_none (l : List Char)
    (h : dropLit "projects/".data l = none) : machineTypeMatch l = false := by
  unfold machineTypeMatch
  rw [h]

/-- machineTypeMatch after consuming the projects/ literal. -/
theorem machineTypeMatch_some (l s1 : List Char)
    (h : dropLit "projects/".data l = some s1) :
    machineTypeMatch l =
      (!(s1.takeWhile Char.isDigit).isEmpty &&
        match dropLit "/machineTypes/".data (s1.dropWhile Char.isDigit) with
        | none => false
        | some s3 => familyTokens.any fun t => famAlt t s3) := by
  unfold machineTypeMatch
  rw [h]

/-- The family alternation is false when the /machineTypes/ literal is
absent after the digit run. -/
theorem famAny_none (s2 : List Char)
    (h : dropLit "/machineTypes/".data s2 = none) :
    (match dropLit "/machineTypes/".data s2 with
     | none => false
     | some s3 => familyTokens.any fun t => famAlt t s3) = false := by
  rw [h]

/-- The family alternation after consuming the /machineTypes/ literal. -/
theorem famAny_some (s2 s3 : List Char)
    (h : dropLit "/machineTypes/".data s2 = some s3) :
    (match dropLit "/machineTypes/".data s2 with
     | none => false
     | some s3 => familyTokens.any fun t => famAlt t s3) =
      familyTokens.any fun t => famAlt t s3 := by
  rw [h]

/-- One family alternative is false when the token-and-hyphen literal is
absent. -/
theorem famAlt_none (t : String) (s3 : List Char)
    (h : dropLit (t.data ++ ['-']) s3 = none) : famAlt t s3 = false := by
  unfold famAlt
  rw [h]

/-- One family alternative after consuming the token and the hyphen: the
remaining tail must be newline-free. -/
theorem famAlt_some (t : String) (s3 r : List Char)
    (h : dropLit (t.data ++ ['-']) s3 = some r) :
    famAlt t s3 = r.all fun ch => ch != '\n' := by
  unfold famAlt
  rw [h]

/-- takeWhile and dropWhile on a block of satisfying characters followed by
a failing character. -/
theorem takeWhile_app_cons (p : Char → Bool) (d : List Char) (c : Char) (r : List Char)
    (hd : ∀ x ∈ d, p x = true) (hc : p c = false) :
    (d ++ c :: r).takeWhile p = d ∧ (d ++ c :: r).dropWhile p = c :: r := by
  induction d with
  | nil => simp [List.takeWhile_cons, List.dropWhile_cons, hc]
  | cons a d ih =>
    have ha : p a = true := hd a (by simp)
    have ih2 := ih fun x hx => hd x (by simp [hx])
    simp [List.takeWhile_cons, List.dropWhile_cons, ha, ih2.1, ih2.2]

/-- C10: every accepted machine-type string has the entire-string form
projects/(digits)/machineTypes/(family)-(rest) with a nonempty digit run
and a family equal to one of the six listed tokens immediately followed by
a hyphen; the exact acceptance boundary is that form with a newline-free
tail, since Go's '.' excludes newline and '$' anchors at end of text; in
particular a family segment merely starting with a listed token, a missing
hyphen, a non-numeric project segment, or a newline in the tail classifies
as not accelerated. -/
theorem supportedMachineRegex_characterization (s : String) :
    (IsAcceleratedFamily s = true →
      ∃ d f r : List Char,
        s.data = "projects/".data ++ d ++ "/machineTypes/".data ++ f ++ '-' :: r ∧
        d ≠ [] ∧ (∀ c ∈ d, c.isDigit = true) ∧ f ∈ familyTokens.map String.data) ∧
    (IsAcceleratedFamily s = true ↔
      ∃ d f r : List Char,
        s.data = "projects/".data ++ d ++ "/machineTypes/".data ++ f ++ '-' :: r ∧
        d ≠ [] ∧ (∀ c ∈ d, c.isDigit = true) ∧ f ∈ familyTokens.map String.data ∧
        ∀ c ∈ r, c ≠ '\n') ∧
    IsAcceleratedFamily "projects/123/machineTypes/a35-x" = false ∧
    IsAcceleratedFamily "projects/123/machineTypes/a3" = false ∧
    IsAcceleratedFamily "projects/abc/machineTypes/a3-x" = false ∧
    IsAcceleratedFamily "projects/1/machineTypes/a3-x\ny" = false := by
  have hiff : IsAcceleratedFamily s = true ↔
      ∃ d f r : List Char,
        s.data = "projects/".data ++ d ++ "/machineTypes/".data ++ f ++ '-' :: r ∧
        d ≠ [] ∧ (∀ c ∈ d, c.isDigit = true) ∧ f ∈ familyTokens.map String.data ∧
        ∀ c ∈ r, c ≠ '\n' := by
    unfold IsAcceleratedFamily supportedMachineRegexMatch
    constructor
    · intro h
      cases hd1 : dropLit "projects/".data s.data with
      | none => rw [machineTypeMatch_none _ hd1] at h; cases h
      | some s1 =>
        rw [machineTypeMatch_some _ _ hd1, Bool.and_eq_true] at h
        obtain ⟨hne, h2⟩ := h
        cases hd2 : dropLit "/machineTypes/".data (s1.dropWhile Char.isDigit) with
        | none => rw [famAny_none _ hd2] at h2; cases h2
        | some s3 =>
          rw [famAny_some _ _ hd2, List.any_eq_true] at h2
          obtain ⟨t, ht, halt⟩ := h2
          cases hdr : dropLit (t.data ++ ['-']) s3 with
          | none => rw [famAlt_none _ _ hdr] at halt; cases halt
          | some r =>
            rw [famAlt_some _ _ _ hdr] at halt
            rw [dropLit_eq_some_iff] at hd1 hd2 hdr
            refine ⟨s1.takeWhile Char.isDigit, t.data, r, ?_, ?_,
              fun c hc => List.mem_takeWhile_imp hc, List.mem_map_of_mem _ ht, ?_⟩
            · rw [hd1]
              conv_lhs => rw [← List.takeWhile_append_dropWhile (p := Char.isDigit) (l := s1)]
              rw [hd2, hdr]
              simp [List.append_assoc]
            · intro hnil
              rw [hnil] at hne
              simp at hne
            · intro c hc
              simpa using List.all_eq_true.mp halt c hc
    · rintro ⟨d, f, r, hs, hdne, hdig, hf, hnl⟩
      rw [List.mem_map] at hf
      obtain ⟨t, ht, hft⟩ := hf
      have hmid : ("/machineTypes/".data : List Char) = '/' :: "machineTypes/".data := by decide
      have h1 : dropLit "projects/".data s.data =
          some (d ++ '/' :: ("machineTypes/".data ++ (f ++ '-' :: r))) := by
        rw [dropLit_eq_some_iff, hs, hmid]
        simp [List.append_assoc]
      rw [machineTypeMatch_some _ _ h1]
      have htk := takeWhile_app_cons Char.isDigit d '/'
        ("machineTypes/".data ++ (f ++ '-' :: r)) hdig (by decide)
      rw [Bool.and_eq_true]
      constructor
      · rw [htk.1]
        cases d with
        | nil => exact absurd rfl hdne
        | cons a d => rfl
      · rw [htk.2]
        have hM : ("machineTypes/".data : List Char) =
            ['m', 'a', 'c', 'h', 'i', 'n', 'e', 'T', 'y', 'p', 'e', 's', '/'] := by decide
        have h2 : dropLit "/machineTypes/".data
            ('/' :: ("machineTypes/".data ++ (f ++ '-' :: r))) = some (f ++ '-' :: r) := by
          rw [dropLit_eq_some_iff, hmid, List.cons_append]
          simp [hM]
        rw [famAny_some _ _ h2, List.any_eq_true]
        refine ⟨t, ht, ?_⟩
        have h3 : dropLit (t.data ++ ['-']) (f ++ '-' :: r) = some r := by
          rw [dropLit_eq_some_iff, hft]
          simp [List.append_assoc]
        rw [famAlt_some _ _ _ h3]
        exact List.all_eq_true.mpr fun c hc => by simpa using hnl c hc
  refine ⟨?_, hiff, by decide, by decide, by decide, by decide⟩
  intro h
  obtain ⟨d, f, r, hform, hd, hdig, hf, -⟩ := hiff.mp h
  exact ⟨d, f, r, hform, hd, hdig, hf⟩

/-- Witness for C10: the characterization applied at a concrete string,
producing its decomposition with the newline-free tail. -/
theorem supportedMachineRegex_characterization_app :
    ∃ d f r : List Char,
      ("projects/42/machineTypes/ct5l-lite").data =
        "projects/".data ++ d ++ "/machineTypes/".data ++ f ++ '-' :: r ∧
      d ≠ [] ∧ (∀ c ∈ d, c.isDigit = true) ∧ f ∈ familyTokens.map String.data ∧
      ∀ c ∈ r, c ≠ '\n' :=
  (supportedMachineRegex_characterization "projects/42/machineTypes/ct5l-lite").2.1.mp
    (by decide)

end GcsFuseCsi
